import Mathlib

/-!
Verification of the announcements router
(`src/backend/routers/announcements.py`).

The router is embedded shallowly: the two MongoDB collections become
association lists, each endpoint becomes a pure function from the stores
and the request parameters to the resulting store and response, and the
Python/BSON library calls the router makes (`datetime.strptime`,
`bson.ObjectId`, truthiness of `Optional[str]`, `find`/`find_one`/
`insert_one`/`update_one`/`delete_one`, `list.sort`) are modelled by the
helper definitions below.  Strings are compared with Lean's lexicographic
order on code points, which agrees with Python `str` comparison and with
MongoDB's binary collation on UTF-8 (UTF-8 byte order equals code-point
order).  Digits are modelled as ASCII `0`-`9`.
-/

namespace Announcements

/-- ASCII digit test (the digit class relevant to `%Y-%m-%d` parsing). -/
def isDigit (c : Char) : Bool := 48 ≤ c.toNat && c.toNat ≤ 57

/-- Numeric value of an ASCII digit character. -/
def digitVal (c : Char) : Nat := c.toNat - 48

/-- The ASCII digit character for a value `0`-`9`. -/
def digitChar : Nat → Char
  | 0 => '0' | 1 => '1' | 2 => '2' | 3 => '3' | 4 => '4'
  | 5 => '5' | 6 => '6' | 7 => '7' | 8 => '8' | 9 => '9'
  | _ => '?'

/-- Longest prefix of digit characters, together with the remainder. -/
def spanDigits : List Char → List Char × List Char
  | [] => ([], [])
  | c :: cs =>
    if isDigit c then
      let p := spanDigits cs
      (c :: p.1, p.2)
    else ([], c :: cs)

/-- Gregorian leap-year rule, as used by Python `datetime`. -/
def isLeap (y : Nat) : Bool := (y % 4 == 0 && y % 100 != 0) || y % 400 == 0

/-- Number of days in month `m` of year `y` (Python `calendar`/`datetime`). -/
def daysInMonth (y m : Nat) : Nat :=
  if m = 2 then (if isLeap y then 29 else 28)
  else if m = 4 ∨ m = 6 ∨ m = 9 ∨ m = 11 then 30
  else 31

/-- Value of a one- or two-digit numeric component token whose two-digit
values range over `01`-`hi`: either one digit `1`-`9` or two digits with
value between 1 and `hi`. -/
def compVal? (hi : Nat) : List Char → Option Nat
  | [c] => if isDigit c ∧ c ≠ '0' then some (digitVal c) else none
  | [c₁, c₂] =>
    if isDigit c₁ ∧ isDigit c₂ ∧ 1 ≤ 10 * digitVal c₁ + digitVal c₂ ∧
        10 * digitVal c₁ + digitVal c₂ ≤ hi then
      some (10 * digitVal c₁ + digitVal c₂)
    else none
  | _ => none

/-- The month token of CPython `_strptime` for `%m`, whose regex is
`1[0-2]|0[1-9]|[1-9]`: one digit `1`-`9`, or two digits with value
`01`-`12`. -/
def monthVal? : List Char → Option Nat := compVal? 12

/-- The day token of CPython `_strptime` for `%d`, whose regex is
`3[01]|[12]\d|0[1-9]|[1-9]`: one digit `1`-`9`, or two digits with value
`01`-`31`. -/
def dayVal? : List Char → Option Nat := compVal? 31

/-- `datetime.strptime(s, "%Y-%m-%d")` on the character list of `s`:
the whole string must match `\d\d\d\d-(1[0-2]|0[1-9]|[1-9])-(3[01]|[12]\d|0[1-9]|[1-9])`,
and the resulting components must form a valid `datetime` (year at least
`MINYEAR = 1`, day within the month).  Because the month and day tokens
are followed by a non-digit (`-` resp. end of string), the regex match is
equivalent to taking the maximal digit run for each component, which is
how it is written here. -/
def parseYMDChars (cs : List Char) : Option (Nat × Nat × Nat) :=
  match cs with
  | c₁ :: c₂ :: c₃ :: c₄ :: c₅ :: rest =>
    if isDigit c₁ ∧ isDigit c₂ ∧ isDigit c₃ ∧ isDigit c₄ ∧ c₅ = '-' then
      match (spanDigits rest).2 with
      | c₆ :: rest₂ =>
        if c₆ = '-' ∧ (spanDigits rest₂).2 = [] then
          match monthVal? (spanDigits rest).1, dayVal? (spanDigits rest₂).1 with
          | some m, some d =>
            if 1 ≤ 1000 * digitVal c₁ + 100 * digitVal c₂ +
                  10 * digitVal c₃ + digitVal c₄ ∧
                d ≤ daysInMonth (1000 * digitVal c₁ + 100 * digitVal c₂ +
                  10 * digitVal c₃ + digitVal c₄) m then
              some (1000 * digitVal c₁ + 100 * digitVal c₂ +
                10 * digitVal c₃ + digitVal c₄, m, d)
            else none
          | _, _ => none
        else none
      | [] => none
    else none
  | _ => none

/-- `datetime.strptime(s, "%Y-%m-%d")`, returning the parsed date. -/
def strptimeYMD (s : String) : Option (Nat × Nat × Nat) :=
  parseYMDChars s.data

/-- The router's date validation: `strptime` succeeds (no `ValueError`). -/
def validate_date (s : String) : Bool :=
  (strptimeYMD s).isSome

/-- Python truthiness of an `Optional[str]`: `None` and `""` are falsy. -/
def truthy : Option String → Bool
  | none => false
  | some s => !(s == "")

/-- ASCII hexadecimal digit test. -/
def isHexDigit (c : Char) : Bool :=
  isDigit c || (97 ≤ c.toNat && c.toNat ≤ 102) || (65 ≤ c.toNat && c.toNat ≤ 70)

/-- `bson.ObjectId(s)` on a string argument: accepted exactly when `s` is a
24-character hexadecimal string; the id is canonicalised to lower case
(`ObjectId` equality and `str()` go through the underlying 12 bytes). -/
def parseObjectId (s : String) : Option String :=
  if s.length = 24 ∧ s.data.all isHexDigit then
    some (String.mk (s.data.map Char.toLower))
  else none

/-- An announcement document as stored in MongoDB.  The collection is
schemaless, so every field the router reads or writes is optional at the
store level except `message`, which is kept as a plain string for
convenience (the router never reads it conditionally). -/
structure Doc where
  message : String := ""
  expiration_date : Option String := none
  start_date : Option String := none
  created_by : Option String := none
  created_at : Option String := none
  updated_by : Option String := none
  updated_at : Option String := none
deriving Repr, DecidableEq, Inhabited

/-- The announcements collection: documents keyed by their `_id`, already
rendered in canonical (lower-case hex) string form, in natural order. -/
abbrev Store := List (String × Doc)

/-- `find_one({"_id": oid})`: the first document with the given id. -/
def findOne (store : Store) (oid : String) : Option (String × Doc) :=
  store.find? (fun r => r.1 == oid)

/-- `update_one({"_id": oid}, ...)`: rewrite the first matching document
(`_id` carries a unique index, so at most one document matches). -/
def updateFirst (store : Store) (oid : String) (f : Doc → Doc) : Store :=
  match store with
  | [] => []
  | r :: rest =>
    if r.1 == oid then (r.1, f r.2) :: rest else r :: updateFirst rest oid f

/-- `delete_one({"_id": oid})`: remove the first matching document. -/
def deleteFirst (store : Store) (oid : String) : Store :=
  match store with
  | [] => []
  | r :: rest => if r.1 == oid then rest else r :: deleteFirst rest oid

/-- Whether a `{"_id": oid}` filter matches (`matched_count`/`deleted_count`
is nonzero). -/
def hasId (store : Store) (oid : String) : Bool :=
  store.any (fun r => r.1 == oid)

/-- The error responses the router raises via `HTTPException`. -/
inductive Err where
  | Unauthorized
  | InvalidDate (field : String)
  | InvalidId
  | NotFound
deriving Repr, DecidableEq

/-- HTTP status code of each `HTTPException` raised by the router. -/
def Err.status : Err → Nat
  | .Unauthorized => 401
  | .InvalidDate _ => 400
  | .InvalidId => 400
  | .NotFound => 404

/-- `GET /announcements` (`get_active_announcements`): Mongo query
`{"expiration_date": {"$gte": current_date}}` (documents missing the field
do not match `$gte`), then the Python-side loop keeping documents whose
`start_date` is falsy (missing or empty) or `<= current_date`. -/
def get_active_announcements (store : Store) (current_date : String) : Store :=
  let announcements := store.filter (fun r =>
    match r.2.expiration_date with
    | some e => current_date ≤ e
    | none => false)
  announcements.filter (fun r =>
    if truthy r.2.start_date then r.2.start_date.getD "" ≤ current_date
    else true)

/-- `GET /announcements/all` (`get_all_announcements`): authentication by
existence of the username in the teachers collection, then every document,
sorted stably by `x.get("expiration_date", "")` descending (Python
`list.sort(key=..., reverse=True)` is a stable descending sort). -/
def get_all_announcements (teachers : List String) (store : Store)
    (username : String) : Except Err Store :=
  if ¬ teachers.contains username then .error .Unauthorized
  else .ok (store.mergeSort (fun a b =>
    b.2.expiration_date.getD "" ≤ a.2.expiration_date.getD ""))

/-- `POST /announcements` (`create_announcement`).  `now_iso` stands for
`datetime.now().isoformat()` and `new_id` for the string form of the
`ObjectId` assigned by `insert_one`.  Returns the resulting collection and
the response. -/
def create_announcement (teachers : List String) (store : Store)
    (username message expiration_date : String) (start_date : Option String)
    (now_iso new_id : String) : Store × Except Err (String × Doc) :=
  if ¬ teachers.contains username then (store, .error .Unauthorized)
  else if ¬ validate_date expiration_date then
    (store, .error (.InvalidDate "expiration_date"))
  else if truthy start_date ∧ ¬ validate_date (start_date.getD "") then
    (store, .error (.InvalidDate "start_date"))
  else
    let announcement : Doc :=
      { message := message
        expiration_date := some expiration_date
        created_by := some username
        created_at := some now_iso
        start_date := if truthy start_date then start_date else none }
    (store ++ [(new_id, announcement)], .ok (new_id, announcement))

/-- `PUT /announcements/{id}` (`update_announcement`).  Follows the source
order: authentication, `ObjectId` validation, `expiration_date` validation,
`start_date` validation (only when truthy), then — when `start_date` is not
provided — a first `update_one` that `$unset`s `start_date`, then the
`$set` `update_one`, a `matched_count` check, and finally `find_one` to
build the response. -/
def update_announcement (teachers : List String) (store : Store)
    (announcement_id username message expiration_date : String)
    (start_date : Option String) (now_iso : String) :
    Store × Except Err (String × Doc) :=
  if ¬ teachers.contains username then (store, .error .Unauthorized)
  else
    match parseObjectId announcement_id with
    | none => (store, .error .InvalidId)
    | some obj_id =>
      if ¬ validate_date expiration_date then
        (store, .error (.InvalidDate "expiration_date"))
      else if truthy start_date ∧ ¬ validate_date (start_date.getD "") then
        (store, .error (.InvalidDate "start_date"))
      else
        let store₁ :=
          if truthy start_date then store
          else updateFirst store obj_id (fun d => { d with start_date := none })
        let store₂ := updateFirst store₁ obj_id (fun d =>
          { d with
            message := message
            expiration_date := some expiration_date
            updated_by := some username
            updated_at := some now_iso
            start_date := if truthy start_date then start_date else d.start_date })
        if ¬ hasId store₁ obj_id then (store₂, .error .NotFound)
        else (store₂, .ok ((findOne store₂ obj_id).getD ("", default)))

/-- `DELETE /announcements/{id}` (`delete_announcement`): authentication,
`ObjectId` validation, `delete_one`, then a `deleted_count` check. -/
def delete_announcement (teachers : List String) (store : Store)
    (announcement_id username : String) : Store × Except Err String :=
  if ¬ teachers.contains username then (store, .error .Unauthorized)
  else
    match parseObjectId announcement_id with
    | none => (store, .error .InvalidId)
    | some obj_id =>
      let store' := deleteFirst store obj_id
      if ¬ hasId store obj_id then (store', .error .NotFound)
      else (store', .ok "Announcement deleted successfully")

/-- The zero-padded two-digit rendering of a number below 100. -/
def padTwo (n : Nat) : List Char := [digitChar (n / 10), digitChar (n % 10)]

/-- The zero-padded four-digit rendering of a number below 10000. -/
def padFour (n : Nat) : List Char :=
  [digitChar (n / 1000), digitChar (n / 100 % 10),
   digitChar (n / 10 % 10), digitChar (n % 10)]

/-- The spellings in which `strptime` accepts a month or day component with
value `n`: zero-padded two-digit, and additionally unpadded when `n < 10`. -/
def componentForms (n : Nat) : List (List Char) :=
  if n < 10 then [[digitChar n], padTwo n] else [padTwo n]

/-- Declarative characterisation of the dates the code's validator accepts:
a four-digit year of a valid proleptic Gregorian date with year at least 1,
followed by dash-separated month and day components, each either
zero-padded or unpadded. -/
def PyDateSpec (s : String) : Prop :=
  ∃ y m d, 1 ≤ y ∧ y ≤ 9999 ∧ 1 ≤ m ∧ m ≤ 12 ∧ 1 ≤ d ∧ d ≤ daysInMonth y m ∧
    ∃ ms ∈ componentForms m, ∃ ds ∈ componentForms d,
      s.data = padFour y ++ '-' :: (ms ++ '-' :: ds)

/-- The spec's words for the date validator (section 4.3): succeeds iff the
string is a calendar date in exact `YYYY-MM-DD` form — four digit year, two
digit month, two digit day, in-range components.  Stated from the spec, to
be compared with the validator embedded from the code. -/
def spec_exact_ymd (s : String) : Bool :=
  match s.data with
  | [y₁, y₂, y₃, y₄, s₁, m₁, m₂, s₂, d₁, d₂] =>
    s₁ = '-' ∧ s₂ = '-' ∧
    isDigit y₁ ∧ isDigit y₂ ∧ isDigit y₃ ∧ isDigit y₄ ∧
    isDigit m₁ ∧ isDigit m₂ ∧ isDigit d₁ ∧ isDigit d₂ ∧
    1 ≤ 1000 * digitVal y₁ + 100 * digitVal y₂ + 10 * digitVal y₃ + digitVal y₄ ∧
    1 ≤ 10 * digitVal m₁ + digitVal m₂ ∧ 10 * digitVal m₁ + digitVal m₂ ≤ 12 ∧
    1 ≤ 10 * digitVal d₁ + digitVal d₂ ∧
    10 * digitVal d₁ + digitVal d₂ ≤
      daysInMonth (1000 * digitVal y₁ + 100 * digitVal y₂ +
        10 * digitVal y₃ + digitVal y₄) (10 * digitVal m₁ + digitVal m₂)
  | _ => false

/-! ### Digit and character lemmas -/

theorem isDigit_iff {c : Char} : isDigit c = true ↔ 48 ≤ c.toNat ∧ c.toNat ≤ 57 := by
  simp [isDigit]

theorem digitVal_lt_ten {c : Char} (h : isDigit c = true) : digitVal c < 10 := by
  have := isDigit_iff.mp h
  simp only [digitVal]
  omega

theorem char_eq_of_toNat_eq {c : Char} {n : Nat} (h : c.toNat = n) :
    c = Char.ofNat n := by
  rw [← h, Char.ofNat_toNat]

theorem char_eq_digitChar {c : Char} {k : Nat} (hd : isDigit c = true)
    (hv : digitVal c = k) : c = digitChar k := by
  obtain ⟨h₁, h₂⟩ := isDigit_iff.mp hd
  have htn : c.toNat = 48 + k := by
    simp only [digitVal] at hv
    omega
  have hk : k < 10 := by omega
  rw [char_eq_of_toNat_eq htn]
  interval_cases k <;> decide

theorem digitVal_digitChar {k : Nat} (h : k < 10) : digitVal (digitChar k) = k := by
  interval_cases k <;> decide

theorem isDigit_digitChar {k : Nat} (h : k < 10) : isDigit (digitChar k) = true := by
  interval_cases k <;> decide

theorem digitChar_ne_zero {k : Nat} (h₁ : 1 ≤ k) (h₂ : k < 10) :
    digitChar k ≠ '0' := by
  interval_cases k <;> decide

/-! ### spanDigits lemmas -/

theorem spanDigits_append (l r : List Char) (hl : ∀ c ∈ l, isDigit c = true)
    (hr : ∀ c, r.head? = some c → isDigit c = false) :
    spanDigits (l ++ r) = (l, r) := by
  induction l with
  | nil =>
    cases r with
    | nil => rfl
    | cons c r' => simp [spanDigits, hr c rfl]
  | cons c l ih =>
    have hc : isDigit c = true := hl c (List.mem_cons_self c l)
    have ih' := ih (fun x hx => hl x (List.mem_cons_of_mem c hx))
    simp [spanDigits, hc, ih']

theorem spanDigits_append_self : ∀ cs : List Char,
    (spanDigits cs).1 ++ (spanDigits cs).2 = cs := by
  intro cs
  induction cs with
  | nil => rfl
  | cons c cs ih => by_cases h : isDigit c <;> simp [spanDigits, h, ih]

/-! ### Month and day token lemmas -/

theorem mem_componentForms_digits {n : Nat} {l : List Char} (hn : n ≤ 99)
    (h : l ∈ componentForms n) : ∀ c ∈ l, isDigit c = true := by
  have h10 : n / 10 < 10 := by omega
  have h10' : n % 10 < 10 := by omega
  have hpad : ∀ c ∈ padTwo n, isDigit c = true := by
    intro c hc
    simp only [padTwo, List.mem_cons, List.not_mem_nil, or_false] at hc
    rcases hc with rfl | rfl
    · exact isDigit_digitChar h10
    · exact isDigit_digitChar h10'
  by_cases hn10 : n < 10
  · simp only [componentForms, if_pos hn10, List.mem_cons, List.not_mem_nil,
      or_false] at h
    rcases h with rfl | rfl
    · intro c hc
      simp only [List.mem_singleton] at hc
      subst hc
      exact isDigit_digitChar hn10
    · exact hpad
  · simp only [componentForms, if_neg hn10, List.mem_singleton] at h
    subst h
    exact hpad

theorem compVal?_eq_some {hi : Nat} {l : List Char} {v : Nat}
    (hhi₁ : 10 ≤ hi) (hhi₂ : hi ≤ 99) :
    compVal? hi l = some v ↔ 1 ≤ v ∧ v ≤ hi ∧ l ∈ componentForms v := by
  constructor
  · intro h
    match l with
    | [] => simp [compVal?] at h
    | [c] =>
      rw [compVal?] at h
      split at h
      · next hc =>
        obtain ⟨hd, hz⟩ := hc
        obtain rfl : digitVal c = v := by simpa using h
        have hlt := digitVal_lt_ten hd
        have h1 : 1 ≤ digitVal c := by
          rcases Nat.eq_zero_or_pos (digitVal c) with h0 | h0
          · exact absurd (char_eq_digitChar hd h0) hz
          · exact h0
        refine ⟨h1, by omega, ?_⟩
        have := char_eq_digitChar hd rfl
        simp [componentForms, hlt, ← this]
      · simp at h
    | [c₁, c₂] =>
      rw [compVal?] at h
      split at h
      · next hc =>
        obtain ⟨hd₁, hd₂, hlo, hhi⟩ := hc
        obtain rfl : 10 * digitVal c₁ + digitVal c₂ = v := by simpa using h
        have hv₁ := digitVal_lt_ten hd₁
        have hv₂ := digitVal_lt_ten hd₂
        refine ⟨hlo, hhi, ?_⟩
        have e₁ : c₁ = digitChar ((10 * digitVal c₁ + digitVal c₂) / 10) :=
          char_eq_digitChar hd₁ (by omega)
        have e₂ : c₂ = digitChar ((10 * digitVal c₁ + digitVal c₂) % 10) :=
          char_eq_digitChar hd₂ (by omega)
        simp only [componentForms, padTwo]
        split <;> simp [← e₁, ← e₂]
      · simp at h
    | c₁ :: c₂ :: c₃ :: l => simp [compVal?] at h
  · rintro ⟨h₁, h₂, hl⟩
    have h10 : v / 10 < 10 := by omega
    have h10' : v % 10 < 10 := by omega
    have hc₁ : isDigit (digitChar (v / 10)) = true := isDigit_digitChar h10
    have hc₂ : isDigit (digitChar (v % 10)) = true := isDigit_digitChar h10'
    have hval : 10 * digitVal (digitChar (v / 10)) +
        digitVal (digitChar (v % 10)) = v := by
      rw [digitVal_digitChar h10, digitVal_digitChar h10']
      omega
    have hpad : compVal? hi (padTwo v) = some v := by
      rw [padTwo, compVal?, if_pos ⟨hc₁, hc₂, by omega, by omega⟩, hval]
    by_cases hv10 : v < 10
    · simp only [componentForms, if_pos hv10, List.mem_cons, List.not_mem_nil,
        or_false] at hl
      rcases hl with rfl | rfl
      · rw [compVal?, if_pos ⟨isDigit_digitChar hv10, digitChar_ne_zero h₁ hv10⟩,
          digitVal_digitChar hv10]
      · exact hpad
    · simp only [componentForms, if_neg hv10, List.mem_singleton] at hl
      subst hl
      exact hpad

/-! ### The date parser -/

theorem daysInMonth_le_31 (y m : Nat) : daysInMonth y m ≤ 31 := by
  rw [daysInMonth]
  split
  · split <;> omega
  · split <;> omega

theorem parseYMDChars_eq_some {cs : List Char} {y m d : Nat} :
    parseYMDChars cs = some (y, m, d) ↔
      1 ≤ y ∧ y ≤ 9999 ∧ 1 ≤ m ∧ m ≤ 12 ∧ 1 ≤ d ∧ d ≤ daysInMonth y m ∧
      ∃ ms ∈ componentForms m, ∃ ds ∈ componentForms d,
        cs = padFour y ++ '-' :: (ms ++ '-' :: ds) := by
  constructor
  · intro h
    match cs with
    | [] => simp [parseYMDChars] at h
    | [c₁] => simp [parseYMDChars] at h
    | [c₁, c₂] => simp [parseYMDChars] at h
    | [c₁, c₂, c₃] => simp [parseYMDChars] at h
    | [c₁, c₂, c₃, c₄] => simp [parseYMDChars] at h
    | c₁ :: c₂ :: c₃ :: c₄ :: c₅ :: rest =>
      rw [parseYMDChars] at h
      split at h
      case isFalse => simp at h
      case isTrue hc =>
        obtain ⟨hd₁, hd₂, hd₃, hd₄, rfl⟩ := hc
        split at h
        case h_2 => simp at h
        case h_1 c₆ rest₂ hsp =>
          split at h
          case isFalse => simp at h
          case isTrue hc₆ =>
            obtain ⟨rfl, hsp₂⟩ := hc₆
            split at h
            case h_2 => simp at h
            case h_1 m' d' hm hd =>
              split at h
              case isFalse => simp at h
              case isTrue hcal =>
                obtain ⟨rfl, rfl, rfl⟩ :
                    1000 * digitVal c₁ + 100 * digitVal c₂ + 10 * digitVal c₃ +
                      digitVal c₄ = y ∧ m' = m ∧ d' = d := by
                  simpa using h
                have hv₁ := digitVal_lt_ten hd₁
                have hv₂ := digitVal_lt_ten hd₂
                have hv₃ := digitVal_lt_ten hd₃
                have hv₄ := digitVal_lt_ten hd₄
                obtain ⟨hm₁, hm₂, hmf⟩ := (compVal?_eq_some (by omega)
                  (by omega)).mp hm
                obtain ⟨hdy₁, hdy₂, hdf⟩ := (compVal?_eq_some (by omega)
                  (by omega)).mp hd
                refine ⟨hcal.1, by omega, hm₁, hm₂, hdy₁, hcal.2,
                  (spanDigits rest).1, hmf, (spanDigits rest₂).1, hdf, ?_⟩
                have e₁ : c₁ = digitChar ((1000 * digitVal c₁ +
                    100 * digitVal c₂ + 10 * digitVal c₃ + digitVal c₄) / 1000) :=
                  char_eq_digitChar hd₁ (by omega)
                have e₂ : c₂ = digitChar ((1000 * digitVal c₁ +
                    100 * digitVal c₂ + 10 * digitVal c₃ + digitVal c₄) / 100 % 10) :=
                  char_eq_digitChar hd₂ (by omega)
                have e₃ : c₃ = digitChar ((1000 * digitVal c₁ +
                    100 * digitVal c₂ + 10 * digitVal c₃ + digitVal c₄) / 10 % 10) :=
                  char_eq_digitChar hd₃ (by omega)
                have e₄ : c₄ = digitChar ((1000 * digitVal c₁ +
                    100 * digitVal c₂ + 10 * digitVal c₃ + digitVal c₄) % 10) :=
                  char_eq_digitChar hd₄ (by omega)
                have hrest : rest = (spanDigits rest).1 ++ '-' :: rest₂ := by
                  rw [← hsp, spanDigits_append_self]
                have hrest₂ : rest₂ = (spanDigits rest₂).1 := by
                  conv_lhs => rw [← spanDigits_append_self rest₂]
                  rw [hsp₂, List.append_nil]
                simp only [padFour, ← e₁, ← e₂, ← e₃, ← e₄, List.cons_append,
                  List.nil_append]
                rw [← hrest₂, ← hrest]
  · rintro ⟨hy₁, hy₂, hm₁, hm₂, hd₁, hd₂, ms, hms, ds, hds, rfl⟩
    have hyd : y / 1000 < 10 := by omega
    have hyc : y / 100 % 10 < 10 := by omega
    have hyb : y / 10 % 10 < 10 := by omega
    have hya : y % 10 < 10 := by omega
    have hmsd : ∀ c ∈ ms, isDigit c = true :=
      mem_componentForms_digits (by omega) hms
    have hdsd : ∀ c ∈ ds, isDigit c = true :=
      mem_componentForms_digits
        (by have := daysInMonth_le_31 y m; omega) hds
    have hspan₁ : spanDigits (ms ++ '-' :: ds) = (ms, '-' :: ds) :=
      spanDigits_append ms ('-' :: ds) hmsd
        (by intro c hc; simp at hc; subst hc; decide)
    have hspan₂ : spanDigits ds = (ds, []) := by
      have := spanDigits_append ds [] hdsd (by intro c hc; simp at hc)
      simpa using this
    have hyval : 1000 * digitVal (digitChar (y / 1000)) +
        100 * digitVal (digitChar (y / 100 % 10)) +
        10 * digitVal (digitChar (y / 10 % 10)) +
        digitVal (digitChar (y % 10)) = y := by
      rw [digitVal_digitChar hyd, digitVal_digitChar hyc,
        digitVal_digitChar hyb, digitVal_digitChar hya]
      omega
    have hmv : compVal? 12 ms = some m :=
      (@compVal?_eq_some 12 ms m (by omega) (by omega)).mpr ⟨hm₁, hm₂, hms⟩
    have hdv : compVal? 31 ds = some d :=
      (@compVal?_eq_some 31 ds d (by omega) (by omega)).mpr
        ⟨hd₁, hd₂.trans (daysInMonth_le_31 y m), hds⟩
    simp only [padFour, List.cons_append, List.nil_append]
    rw [parseYMDChars]
    rw [if_pos ⟨isDigit_digitChar hyd, isDigit_digitChar hyc,
      isDigit_digitChar hyb, isDigit_digitChar hya, rfl⟩]
    simp [hspan₁, hspan₂, monthVal?, dayVal?, hmv, hdv, hyval, hy₁, hd₂]

theorem validate_date_iff (s : String) : validate_date s = true ↔ PyDateSpec s := by
  rw [validate_date, strptimeYMD, Option.isSome_iff_exists]
  constructor
  · rintro ⟨⟨y, m, d⟩, h⟩
    obtain ⟨h₁, h₂, h₃, h₄, h₅, h₆, hrest⟩ := parseYMDChars_eq_some.mp h
    exact ⟨y, m, d, h₁, h₂, h₃, h₄, h₅, h₆, hrest⟩
  · rintro ⟨y, m, d, h₁, h₂, h₃, h₄, h₅, h₆, hrest⟩
    exact ⟨(y, m, d), parseYMDChars_eq_some.mpr ⟨h₁, h₂, h₃, h₄, h₅, h₆, hrest⟩⟩

/-! ### Store operation lemmas -/

theorem contains_iff {l : List String} {a : String} :
    l.contains a = true ↔ a ∈ l :=
  List.elem_iff

theorem string_empty_le (t : String) : "" ≤ t := by
  rw [String.le_iff_toList_le]
  cases h : t.toList with
  | nil => exact le_refl _
  | cons c cs => exact le_of_lt (List.nil_lt_cons c cs)

theorem findOne_updateFirst (store : Store) (oid : String) (f : Doc → Doc) :
    findOne (updateFirst store oid f) oid =
      (findOne store oid).map (fun r => (r.1, f r.2)) := by
  induction store with
  | nil => rfl
  | cons r rest ih =>
    by_cases h : r.1 = oid
    · simp [updateFirst, findOne, h]
    · simp only [updateFirst, beq_iff_eq, if_neg h, findOne, List.find?]
      rw [show (r.1 == oid) = false by simpa using h]
      exact ih

theorem hasId_updateFirst (store : Store) (oid oid' : String) (f : Doc → Doc) :
    hasId (updateFirst store oid f) oid' = hasId store oid' := by
  induction store with
  | nil => rfl
  | cons r rest ih =>
    by_cases h : r.1 = oid
    · simp [updateFirst, hasId, h]
    · simp only [updateFirst, beq_iff_eq, if_neg h, hasId, List.any_cons]
      rw [show (List.any (updateFirst rest oid f) fun r => r.1 == oid') =
        (rest.any fun r => r.1 == oid') from ih]

theorem updateFirst_of_not_hasId {store : Store} {oid : String}
    (h : hasId store oid = false) (f : Doc → Doc) :
    updateFirst store oid f = store := by
  induction store with
  | nil => rfl
  | cons r rest ih =>
    simp only [hasId, List.any_cons, Bool.or_eq_false_iff, beq_eq_false_iff_ne,
      ne_eq] at h
    simp [updateFirst, h.1, ih h.2]

theorem findOne_isSome (store : Store) (oid : String) :
    (findOne store oid).isSome = hasId store oid := by
  induction store with
  | nil => rfl
  | cons r rest ih =>
    by_cases h : r.1 = oid
    · simp [findOne, hasId, h]
    · simp only [findOne, List.find?, hasId, List.any_cons]
      rw [show (r.1 == oid) = false by simpa using h]
      simpa [findOne, hasId] using ih

theorem deleteFirst_sublist (store : Store) (oid : String) :
    (deleteFirst store oid).Sublist store := by
  induction store with
  | nil => exact List.Sublist.refl []
  | cons r rest ih =>
    by_cases h : r.1 = oid
    · simp only [deleteFirst, beq_iff_eq, if_pos h]
      exact List.sublist_cons_self r rest
    · simp only [deleteFirst, beq_iff_eq, if_neg h]
      exact ih.cons₂ r

theorem deleteFirst_of_not_hasId {store : Store} {oid : String}
    (h : hasId store oid = false) : deleteFirst store oid = store := by
  induction store with
  | nil => rfl
  | cons r rest ih =>
    simp only [hasId, List.any_cons, Bool.or_eq_false_iff, beq_eq_false_iff_ne,
      ne_eq] at h
    simp [deleteFirst, h.1, ih h.2]

theorem length_deleteFirst {store : Store} {oid : String}
    (h : hasId store oid = true) :
    (deleteFirst store oid).length + 1 = store.length := by
  induction store with
  | nil => simp [hasId] at h
  | cons r rest ih =>
    by_cases hr : r.1 = oid
    · simp [deleteFirst, hr]
    · simp only [hasId, List.any_cons, Bool.or_eq_true, beq_iff_eq] at h
      rcases h with h | h
      · exact absurd h hr
      · simp only [deleteFirst, beq_iff_eq, if_neg hr, List.length_cons]
        rw [← ih h]

theorem deleteFirst_key_not_mem {store : Store} {oid : String}
    (hnd : (store.map Prod.fst).Nodup) :
    ∀ r ∈ deleteFirst store oid, r.1 ≠ oid := by
  induction store with
  | nil => simp [deleteFirst]
  | cons r rest ih =>
    simp only [List.map_cons, List.nodup_cons] at hnd
    by_cases hr : r.1 = oid
    · intro x hx hxk
      simp only [deleteFirst, beq_iff_eq, if_pos hr] at hx
      have hmem : x.1 ∈ rest.map Prod.fst := List.mem_map_of_mem Prod.fst hx
      rw [hxk, ← hr] at hmem
      exact hnd.1 hmem
    · intro x hx
      simp only [deleteFirst, beq_iff_eq, if_neg hr, List.mem_cons] at hx
      rcases hx with rfl | hx
      · exact hr
      · exact ih hnd.2 x hx

theorem updateFirst_updateFirst (store : Store) (oid : String) (f g : Doc → Doc) :
    updateFirst (updateFirst store oid f) oid g =
      updateFirst store oid (fun d => g (f d)) := by
  induction store with
  | nil => rfl
  | cons r rest ih =>
    by_cases h : r.1 = oid
    · simp [updateFirst, h]
    · simp [updateFirst, h, ih]

theorem updateFirst_congr_of_findOne {store : Store} {oid k : String} {d0 : Doc}
    (h : findOne store oid = some (k, d0)) (f : Doc → Doc) :
    updateFirst store oid f = updateFirst store oid (fun _ => f d0) := by
  induction store with
  | nil => rfl
  | cons r rest ih =>
    obtain ⟨rk, rd⟩ := r
    by_cases hr : rk = oid
    · have hrd : rd = d0 := by
        simp only [findOne, List.find?] at h
        rw [show (rk == oid) = true by simpa using hr] at h
        simp only [Option.some.injEq, Prod.mk.injEq] at h
        exact h.2
      simp [updateFirst, hr, hrd]
    · simp only [findOne, List.find?] at h
      rw [show (rk == oid) = false by simpa using hr] at h
      simp only [updateFirst, beq_iff_eq, if_neg hr]
      rw [ih h]

/-! ### Endpoint behaviour lemmas -/

theorem create_unauthorized {teachers : List String} {u : String}
    (hu : u ∉ teachers) (store : Store) (msg e : String) (sd : Option String)
    (iso nid : String) :
    create_announcement teachers store u msg e sd iso nid =
      (store, .error .Unauthorized) := by
  rw [create_announcement, if_pos (by simpa [contains_iff] using hu)]

theorem create_invalid_expiration {teachers : List String} {u : String}
    (hu : u ∈ teachers) {e : String} (he : validate_date e = false)
    (store : Store) (msg : String) (sd : Option String) (iso nid : String) :
    create_announcement teachers store u msg e sd iso nid =
      (store, .error (.InvalidDate "expiration_date")) := by
  rw [create_announcement, if_neg (by simpa [contains_iff] using hu),
    if_pos (by simp [he])]

theorem create_invalid_start {teachers : List String} {u : String}
    (hu : u ∈ teachers) {e : String} (he : validate_date e = true)
    {sd : Option String} (ht : truthy sd = true)
    (hv : validate_date (sd.getD "") = false)
    (store : Store) (msg iso nid : String) :
    create_announcement teachers store u msg e sd iso nid =
      (store, .error (.InvalidDate "start_date")) := by
  rw [create_announcement, if_neg (by simpa [contains_iff] using hu),
    if_neg (by simp [he]), if_pos ⟨ht, by simp [hv]⟩]

theorem create_ok {teachers : List String} {u : String} (hu : u ∈ teachers)
    {e : String} (he : validate_date e = true) {sd : Option String}
    (hsd : truthy sd = true → validate_date (sd.getD "") = true)
    (store : Store) (msg iso nid : String) :
    create_announcement teachers store u msg e sd iso nid =
      (store ++
        [(nid,
          { message := msg, expiration_date := some e,
            created_by := some u, created_at := some iso,
            start_date := if truthy sd then sd else none })],
        .ok (nid,
          { message := msg, expiration_date := some e,
            created_by := some u, created_at := some iso,
            start_date := if truthy sd then sd else none })) := by
  rw [create_announcement, if_neg (by simpa [contains_iff] using hu),
    if_neg (by simp [he]), if_neg (fun hc => hc.2 (hsd hc.1))]

theorem get_all_unauthorized {teachers : List String} {u : String}
    (hu : u ∉ teachers) (store : Store) :
    get_all_announcements teachers store u = .error .Unauthorized := by
  rw [get_all_announcements, if_pos (by simpa [contains_iff] using hu)]

theorem get_all_ok {teachers : List String} {u : String} (hu : u ∈ teachers)
    (store : Store) :
    get_all_announcements teachers store u = .ok (store.mergeSort (fun a b =>
      b.2.expiration_date.getD "" ≤ a.2.expiration_date.getD "")) := by
  rw [get_all_announcements, if_neg (by simpa [contains_iff] using hu)]

theorem update_unauthorized {teachers : List String} {u : String}
    (hu : u ∉ teachers) (store : Store) (id msg e : String)
    (sd : Option String) (iso : String) :
    update_announcement teachers store id u msg e sd iso =
      (store, .error .Unauthorized) := by
  rw [update_announcement, if_pos (by simpa [contains_iff] using hu)]

theorem update_invalid_id {teachers : List String} {u : String}
    (hu : u ∈ teachers) {id : String} (hid : parseObjectId id = none)
    (store : Store) (msg e : String) (sd : Option String) (iso : String) :
    update_announcement teachers store id u msg e sd iso =
      (store, .error .InvalidId) := by
  rw [update_announcement, if_neg (by simpa [contains_iff] using hu)]
  simp [hid]

theorem update_invalid_expiration {teachers : List String} {u : String}
    (hu : u ∈ teachers) {id oid : String} (hid : parseObjectId id = some oid)
    {e : String} (he : validate_date e = false)
    (store : Store) (msg : String) (sd : Option String) (iso : String) :
    update_announcement teachers store id u msg e sd iso =
      (store, .error (.InvalidDate "expiration_date")) := by
  rw [update_announcement, if_neg (by simpa [contains_iff] using hu)]
  simp [hid, he]

theorem update_invalid_start {teachers : List String} {u : String}
    (hu : u ∈ teachers) {id oid : String} (hid : parseObjectId id = some oid)
    {e : String} (he : validate_date e = true) {sd : Option String}
    (ht : truthy sd = true) (hv : validate_date (sd.getD "") = false)
    (store : Store) (msg iso : String) :
    update_announcement teachers store id u msg e sd iso =
      (store, .error (.InvalidDate "start_date")) := by
  rw [update_announcement, if_neg (by simpa [contains_iff] using hu)]
  simp [hid, he, ht, hv]

theorem update_notfound {teachers : List String} {u : String}
    (hu : u ∈ teachers) {id oid : String} (hid : parseObjectId id = some oid)
    {e : String} (he : validate_date e = true) {sd : Option String}
    (hsd : truthy sd = true → validate_date (sd.getD "") = true)
    {store : Store} (hna : hasId store oid = false) (msg iso : String) :
    update_announcement teachers store id u msg e sd iso =
      (store, .error .NotFound) := by
  rw [update_announcement, if_neg (by simpa [contains_iff] using hu)]
  by_cases htr : truthy sd = true
  · simp [hid, he, htr, hsd htr, hna, updateFirst_of_not_hasId hna]
  · have htr' : truthy sd = false := by simpa using htr
    simp [hid, he, htr', hna, updateFirst_of_not_hasId hna,
      hasId_updateFirst, updateFirst_of_not_hasId]

theorem update_found {teachers : List String} {u : String} (hu : u ∈ teachers)
    {id oid : String} (hid : parseObjectId id = some oid)
    {e : String} (he : validate_date e = true) {sd : Option String}
    (hsd : truthy sd = true → validate_date (sd.getD "") = true)
    {store : Store} {d0 : Doc} (hfw : findOne store oid = some (oid, d0))
    (msg iso : String) :
    ∃ dnew : Doc,
      update_announcement teachers store id u msg e sd iso =
        (updateFirst store oid (fun _ => dnew), .ok (oid, dnew)) ∧
      findOne (updateFirst store oid (fun _ => dnew)) oid = some (oid, dnew) ∧
      dnew.message = msg ∧ dnew.expiration_date = some e ∧
      dnew.updated_by = some u ∧ dnew.updated_at = some iso ∧
      dnew.start_date = (if truthy sd then sd else none) ∧
      dnew.created_by = d0.created_by ∧ dnew.created_at = d0.created_at := by
  have hhas : hasId store oid = true := by
    rw [← findOne_isSome, hfw]
    rfl
  have hfind : ∀ dnew : Doc,
      findOne (updateFirst store oid (fun _ => dnew)) oid = some (oid, dnew) := by
    intro dnew
    rw [findOne_updateFirst, hfw]
    rfl
  by_cases htr : truthy sd = true
  · refine
      ⟨{ message := msg, expiration_date := some e,
         start_date := if truthy sd then sd else none,
         created_by := d0.created_by, created_at := d0.created_at,
         updated_by := some u, updated_at := some iso },
       ?_, hfind _, by simp, by simp, by simp, by simp, by simp, by simp,
       by simp⟩
    have hv := hsd htr
    rw [update_announcement, if_neg (by simpa [contains_iff] using hu)]
    simp only [hid]
    simp [he, htr, hv, hhas, hasId_updateFirst]
    rw [updateFirst_congr_of_findOne hfw]
    simp [hfind, htr]
  · have htr' : truthy sd = false := by simpa using htr
    refine
      ⟨{ message := msg, expiration_date := some e,
         start_date := if truthy sd then sd else none,
         created_by := d0.created_by, created_at := d0.created_at,
         updated_by := some u, updated_at := some iso },
       ?_, hfind _, by simp, by simp, by simp, by simp, by simp, by simp,
       by simp⟩
    rw [update_announcement, if_neg (by simpa [contains_iff] using hu)]
    simp only [hid]
    simp [he, htr', hhas, hasId_updateFirst, updateFirst_updateFirst]
    rw [updateFirst_congr_of_findOne hfw]
    simp [hfind, htr']

theorem delete_unauthorized {teachers : List String} {u : String}
    (hu : u ∉ teachers) (store : Store) (id : String) :
    delete_announcement teachers store id u = (store, .error .Unauthorized) := by
  rw [delete_announcement, if_pos (by simpa [contains_iff] using hu)]

theorem delete_invalid_id {teachers : List String} {u : String}
    (hu : u ∈ teachers) {id : String} (hid : parseObjectId id = none)
    (store : Store) :
    delete_announcement teachers store id u = (store, .error .InvalidId) := by
  rw [delete_announcement, if_neg (by simpa [contains_iff] using hu)]
  simp [hid]

theorem delete_notfound {teachers : List String} {u : String}
    (hu : u ∈ teachers) {id oid : String} (hid : parseObjectId id = some oid)
    {store : Store} (hna : hasId store oid = false) :
    delete_announcement teachers store id u = (store, .error .NotFound) := by
  rw [delete_announcement, if_neg (by simpa [contains_iff] using hu)]
  simp [hid, hna, deleteFirst_of_not_hasId hna]

theorem delete_found {teachers : List String} {u : String}
    (hu : u ∈ teachers) {id oid : String} (hid : parseObjectId id = some oid)
    {store : Store} (hhas : hasId store oid = true) :
    delete_announcement teachers store id u =
      (deleteFirst store oid, .ok "Announcement deleted successfully") := by
  rw [delete_announcement, if_neg (by simpa [contains_iff] using hu)]
  simp [hid, hhas]

/-- Membership in the active list, characterised: the record must carry an
expiration date at least the current date, and a start date that is absent
or at most the current date (the empty string, being `<=` every string,
never excludes a record). -/
theorem mem_active_iff {store : Store} {id D e : String} {dc : Doc}
    (hmem : (id, dc) ∈ store) (he : dc.expiration_date = some e) :
    ((id, dc) ∈ get_active_announcements store D ↔
      D ≤ e ∧ (dc.start_date = none ∨ ∃ s, dc.start_date = some s ∧ s ≤ D)) := by
  simp only [get_active_announcements, List.mem_filter, hmem, true_and, he]
  cases hs : dc.start_date with
  | none => simp [truthy, hs]
  | some s =>
    by_cases hse : s = ""
    · subst hse
      simp [truthy, hs, string_empty_le D]
    · simp [truthy, hs, hse, and_comm]

/-! ### Claim theorems -/

/-- Claim C1: for every announcement record and date `D`, the record is in
`list_active(D)` iff its `expiration_date >= D` and its `start_date` is
absent or `<= D`, with string comparison for both. -/
theorem C1_active_visibility (store : Store) (id D e : String) (dc : Doc)
    (hmem : (id, dc) ∈ store) (he : dc.expiration_date = some e) :
    ((id, dc) ∈ get_active_announcements store D ↔
      D ≤ e ∧ (dc.start_date = none ∨ ∃ s, dc.start_date = some s ∧ s ≤ D)) :=
  mem_active_iff hmem he

/-- Witness for C1 at a concrete store and date. -/
theorem C1_active_visibility_witness :
    (("a",
      ({ expiration_date := some "2099-01-01",
         start_date := some "2020-05-05" } : Doc)) ∈
      get_active_announcements
        [("a",
          { expiration_date := some "2099-01-01",
            start_date := some "2020-05-05" })] "2025-10-12" ↔
      ("2025-10-12" : String) ≤ "2099-01-01" ∧
      (({ expiration_date := some "2099-01-01",
          start_date := some "2020-05-05" } : Doc).start_date = none ∨
        ∃ s,
          ({ expiration_date := some "2099-01-01",
             start_date := some "2020-05-05" } : Doc).start_date = some s ∧
          s ≤ "2025-10-12")) :=
  C1_active_visibility _ "a" "2025-10-12" "2099-01-01" _ (by decide) rfl

/-- Claim C2 (amended): date validation succeeds iff the string parses
under Python `strptime` format `%Y-%m-%d`: a four-digit year, dash, month,
dash, day, where the month and day components may be zero-padded or
unpadded (so `2023-1-5` is accepted), the components are in range, and the
date is calendar-valid with year at least 1; free text and out-of-range
components are rejected.  On failure, create and update return an
`InvalidDate` error (400) naming the failing field. -/
theorem C2_date_validation :
    (∀ s, validate_date s = true ↔ PyDateSpec s) ∧
    (∀ (teachers : List String) (store : Store) (u msg e : String)
      (sd : Option String) (iso nid : String), u ∈ teachers →
      validate_date e = false →
      create_announcement teachers store u msg e sd iso nid =
        (store, .error (.InvalidDate "expiration_date"))) ∧
    (∀ (teachers : List String) (store : Store) (u msg e : String)
      (sd : Option String) (iso nid : String), u ∈ teachers →
      validate_date e = true → truthy sd = true →
      validate_date (sd.getD "") = false →
      create_announcement teachers store u msg e sd iso nid =
        (store, .error (.InvalidDate "start_date"))) ∧
    (∀ (teachers : List String) (store : Store) (id oid u msg e : String)
      (sd : Option String) (iso : String), u ∈ teachers →
      parseObjectId id = some oid → validate_date e = false →
      update_announcement teachers store id u msg e sd iso =
        (store, .error (.InvalidDate "expiration_date"))) ∧
    (∀ (teachers : List String) (store : Store) (id oid u msg e : String)
      (sd : Option String) (iso : String), u ∈ teachers →
      parseObjectId id = some oid → validate_date e = true →
      truthy sd = true → validate_date (sd.getD "") = false →
      update_announcement teachers store id u msg e sd iso =
        (store, .error (.InvalidDate "start_date"))) ∧
    (∀ f, (Err.InvalidDate f).status = 400) := by
  refine ⟨validate_date_iff, ?_, ?_, ?_, ?_, fun f => rfl⟩
  · intro teachers store u msg e sd iso nid hu he
    exact create_invalid_expiration hu he store msg sd iso nid
  · intro teachers store u msg e sd iso nid hu he ht hv
    exact create_invalid_start hu he ht hv store msg iso nid
  · intro teachers store id oid u msg e sd iso hu hid he
    exact update_invalid_expiration hu hid he store msg sd iso
  · intro teachers store id oid u msg e sd iso hu hid he ht hv
    exact update_invalid_start hu hid he ht hv store msg iso

/-- Witness for C2: a valid padded date is accepted (via the
characterisation), and an update with the malformed `13/2023` fails with
the field-specific error. -/
theorem C2_date_validation_witness :
    PyDateSpec "2023-01-05" ∧
    update_announcement ["t"] [] "aaaaaaaaaaaaaaaaaaaaaaaa" "t" "m" "13/2023"
        none "T" = ([], .error (.InvalidDate "expiration_date")) :=
  ⟨(C2_date_validation.1 "2023-01-05").mp (by decide),
   C2_date_validation.2.2.2.1 ["t"] [] "aaaaaaaaaaaaaaaaaaaaaaaa"
     "aaaaaaaaaaaaaaaaaaaaaaaa" "t" "m" "13/2023" none "T"
     (by decide) (by decide) (by decide)⟩

/-- Counterexample to C2 as stated: `2023-1-5` is not in exact
`YYYY-MM-DD` form (per the spec's own words, formalised as
`spec_exact_ymd`), yet the code's validation accepts it. -/
theorem C2_counterexample :
    validate_date "2023-1-5" = true ∧ spec_exact_ymd "2023-1-5" = false := by
  decide

/-- Claim C3: update with `start_date` omitted replaces `message` and
`expiration_date`, stamps `updated_by`/`updated_at`, removes any existing
`start_date` field, and a subsequent fetch observes exactly the returned
record. -/
theorem C3_update_removes_start (teachers : List String) (store : Store)
    (id oid u msg e iso : String) (d0 : Doc)
    (hu : u ∈ teachers) (hid : parseObjectId id = some oid)
    (he : validate_date e = true)
    (hfw : findOne store oid = some (oid, d0)) :
    ∃ store' dnew,
      update_announcement teachers store id u msg e none iso =
        (store', .ok (oid, dnew)) ∧
      findOne store' oid = some (oid, dnew) ∧
      dnew.start_date = none ∧ dnew.message = msg ∧
      dnew.expiration_date = some e ∧ dnew.updated_by = some u ∧
      dnew.updated_at = some iso := by
  obtain ⟨dnew, h1, h2, h3, h4, h5, h6, h7, h8, h9⟩ :=
    update_found hu hid he
      (fun ht : truthy none = true => by simp [truthy] at ht) hfw msg iso
  exact ⟨_, dnew, h1, h2, by simpa [truthy] using h7, h3, h4, h5, h6⟩

/-- Witness for C3: updating a stored record that has a start date, with
`start_date` omitted. -/
theorem C3_update_removes_start_witness :
    ∃ store' dnew,
      update_announcement ["t"]
        [("aaaaaaaaaaaaaaaaaaaaaaaa",
          { message := "old", expiration_date := some "2024-01-01",
            start_date := some "2023-01-01" })]
        "aaaaaaaaaaaaaaaaaaaaaaaa" "t" "new" "2099-12-31" none "T" =
        (store', .ok ("aaaaaaaaaaaaaaaaaaaaaaaa", dnew)) ∧
      findOne store' "aaaaaaaaaaaaaaaaaaaaaaaa" =
        some ("aaaaaaaaaaaaaaaaaaaaaaaa", dnew) ∧
      dnew.start_date = none ∧ dnew.message = "new" ∧
      dnew.expiration_date = some "2099-12-31" ∧ dnew.updated_by = some "t" ∧
      dnew.updated_at = some "T" :=
  C3_update_removes_start ["t"]
    [("aaaaaaaaaaaaaaaaaaaaaaaa",
      { message := "old", expiration_date := some "2024-01-01",
        start_date := some "2023-01-01" })]
    "aaaaaaaaaaaaaaaaaaaaaaaa" "aaaaaaaaaaaaaaaaaaaaaaaa" "t" "new"
    "2099-12-31" "T"
    { message := "old", expiration_date := some "2024-01-01",
      start_date := some "2023-01-01" }
    (by decide) (by decide) (by decide) (by decide)

/-- Claim C4: update with an expiration date that does not parse returns
`InvalidDate` and leaves the store completely unchanged — no write,
including no removal of `start_date`, happens before the error. -/
theorem C4_update_invalid_date_unchanged (teachers : List String)
    (store : Store) (id oid u msg e : String) (sd : Option String)
    (iso : String) (hu : u ∈ teachers) (hid : parseObjectId id = some oid)
    (he : validate_date e = false) :
    update_announcement teachers store id u msg e sd iso =
      (store, .error (.InvalidDate "expiration_date")) :=
  update_invalid_expiration hu hid he store msg sd iso

/-- Witness for C4: `13/2023` against a stored record carrying a
start date; the resulting store is the original one. -/
theorem C4_update_invalid_date_unchanged_witness :
    update_announcement ["t"]
      [("aaaaaaaaaaaaaaaaaaaaaaaa",
        { message := "old", expiration_date := some "2024-01-01",
          start_date := some "2023-01-01" })]
      "aaaaaaaaaaaaaaaaaaaaaaaa" "t" "new" "13/2023" (some "2023-06-01") "T" =
      ([("aaaaaaaaaaaaaaaaaaaaaaaa",
        { message := "old", expiration_date := some "2024-01-01",
          start_date := some "2023-01-01" })],
       .error (.InvalidDate "expiration_date")) :=
  C4_update_invalid_date_unchanged ["t"] _ _ "aaaaaaaaaaaaaaaaaaaaaaaa" "t"
    "new" "13/2023" (some "2023-06-01") "T" (by decide) (by decide) (by decide)

/-- Claim C5: the authorization check (username present in the identity
store) guards `list_all`, `create`, `update` and `delete`; on failure the
result is `Unauthorized` (401) with no data returned and no store
mutation.  The public `list_active` takes no username at all and returns
records straight from the store for any caller. -/
theorem C5_authorization_gate (teachers : List String) (u : String)
    (hu : u ∉ teachers) :
    (∀ store, get_all_announcements teachers store u = .error .Unauthorized) ∧
    (∀ (store : Store) (msg e : String) (sd : Option String) (iso nid : String),
      create_announcement teachers store u msg e sd iso nid =
        (store, .error .Unauthorized)) ∧
    (∀ (store : Store) (id msg e : String) (sd : Option String) (iso : String),
      update_announcement teachers store id u msg e sd iso =
        (store, .error .Unauthorized)) ∧
    (∀ (store : Store) (id : String),
      delete_announcement teachers store id u = (store, .error .Unauthorized)) ∧
    Err.status .Unauthorized = 401 ∧
    (∀ (store : Store) (D : String),
      (get_active_announcements store D).Sublist store) := by
  refine ⟨fun store => get_all_unauthorized hu store,
    fun store msg e sd iso nid => create_unauthorized hu store msg e sd iso nid,
    fun store id msg e sd iso => update_unauthorized hu store id msg e sd iso,
    fun store id => delete_unauthorized hu store id, rfl, fun store D => ?_⟩
  simp only [get_active_announcements]
  exact (List.filter_sublist _).trans (List.filter_sublist _)

/-- Witness for C5: an unregistered username is rejected by `list_all`. -/
theorem C5_authorization_gate_witness :
    get_all_announcements ["t"] [] "ghost" = .error .Unauthorized :=
  (C5_authorization_gate ["t"] "ghost" (by decide)).1 []

/-- Claim C6: for a registered user, `list_all` returns every record of the
store (a permutation, no filtering), sorted by `expiration_date`
descending, a missing `expiration_date` being treated as the empty
string. -/
theorem C6_list_all_sorted (teachers : List String) (store : Store)
    (u : String) (hu : u ∈ teachers) :
    ∃ l, get_all_announcements teachers store u = .ok l ∧
      l.Perm store ∧
      l.Pairwise (fun a b =>
        b.2.expiration_date.getD "" ≤ a.2.expiration_date.getD "") := by
  refine ⟨_, get_all_ok hu store, List.mergeSort_perm store _, ?_⟩
  have h := @List.sorted_mergeSort (String × Doc)
    (fun a b =>
      decide (b.2.expiration_date.getD "" ≤ a.2.expiration_date.getD ""))
    (fun a b c hab hbc => by
      simp only [decide_eq_true_eq] at hab hbc ⊢
      exact le_trans hbc hab)
    (fun a b => by
      simp only [Bool.or_eq_true, decide_eq_true_eq]
      exact le_total _ _)
    store
  exact h.imp (fun hab => by simpa using hab)

/-- Witness for C6 at a concrete store, including a record without an
expiration date. -/
theorem C6_list_all_sorted_witness :
    ∃ l, get_all_announcements ["t"]
        [("a", { expiration_date := some "2024-01-01" }),
         ("b", { message := "no-expiry" }),
         ("c", { expiration_date := some "2099-01-01" })] "t" = .ok l ∧
      l.Perm [("a", { expiration_date := some "2024-01-01" }),
         ("b", { message := "no-expiry" }),
         ("c", { expiration_date := some "2099-01-01" })] ∧
      l.Pairwise (fun a b =>
        b.2.expiration_date.getD "" ≤ a.2.expiration_date.getD "") :=
  C6_list_all_sorted ["t"] _ "t" (by decide)

/-- Claim C7: delete returns `InvalidId` (400) on a malformed id,
`NotFound` (404) on a valid id with no matching record, and otherwise
removes the matching record and returns a confirmation message. -/
theorem C7_delete_spec (teachers : List String) (store : Store)
    (id u : String) (hu : u ∈ teachers) :
    (parseObjectId id = none →
      delete_announcement teachers store id u = (store, .error .InvalidId)) ∧
    (∀ oid, parseObjectId id = some oid → hasId store oid = false →
      delete_announcement teachers store id u = (store, .error .NotFound)) ∧
    (∀ oid, parseObjectId id = some oid → hasId store oid = true →
      (store.map Prod.fst).Nodup →
      ∃ store', delete_announcement teachers store id u =
          (store', .ok "Announcement deleted successfully") ∧
        store'.Sublist store ∧ store'.length + 1 = store.length ∧
        ∀ r ∈ store', r.1 ≠ oid) ∧
    Err.status .InvalidId = 400 ∧ Err.status .NotFound = 404 := by
  refine ⟨fun hid => delete_invalid_id hu hid store,
    fun oid hid hna => delete_notfound hu hid hna,
    fun oid hid hhas hnd => ⟨_, delete_found hu hid hhas,
      deleteFirst_sublist store oid, length_deleteFirst hhas,
      deleteFirst_key_not_mem hnd⟩, rfl, rfl⟩

/-- Witness for C7: a malformed id, a nonexistent valid id, and a
successful delete. -/
theorem C7_delete_spec_witness :
    delete_announcement ["t"] [] "not-an-id" "t" = ([], .error .InvalidId) ∧
    delete_announcement ["t"] [] "aaaaaaaaaaaaaaaaaaaaaaaa" "t" =
      ([], .error .NotFound) ∧
    ∃ store', delete_announcement ["t"]
        [("aaaaaaaaaaaaaaaaaaaaaaaa", { message := "x" })]
        "aaaaaaaaaaaaaaaaaaaaaaaa" "t" =
        (store', .ok "Announcement deleted successfully") ∧
      store'.Sublist [("aaaaaaaaaaaaaaaaaaaaaaaa", { message := "x" })] ∧
      store'.length + 1 =
        [("aaaaaaaaaaaaaaaaaaaaaaaa", ({ message := "x" } : Doc))].length ∧
      ∀ r ∈ store', r.1 ≠ "aaaaaaaaaaaaaaaaaaaaaaaa" :=
  ⟨(C7_delete_spec ["t"] [] "not-an-id" "t" (by decide)).1 (by decide),
   (C7_delete_spec ["t"] [] "aaaaaaaaaaaaaaaaaaaaaaaa" "t" (by decide)).2.1
     "aaaaaaaaaaaaaaaaaaaaaaaa" (by decide) (by decide),
   (C7_delete_spec ["t"] [("aaaaaaaaaaaaaaaaaaaaaaaa", { message := "x" })]
     "aaaaaaaaaaaaaaaaaaaaaaaa" "t" (by decide)).2.2.1
     "aaaaaaaaaaaaaaaaaaaaaaaa" (by decide) (by decide) (by decide)⟩

/-- Claim C8: a successful create stamps `created_by` with the supplied
username and sets `created_at`, returns the stored record under its
store-assigned identifier, and a subsequent `list_all` by a registered
user contains that record. -/
theorem C8_create_then_list (teachers : List String) (store : Store)
    (u v msg e : String) (sd : Option String) (iso nid : String)
    (hu : u ∈ teachers) (hv : v ∈ teachers) (he : validate_date e = true)
    (hsd : truthy sd = true → validate_date (sd.getD "") = true) :
    ∃ store' doc l,
      create_announcement teachers store u msg e sd iso nid =
        (store', .ok (nid, doc)) ∧
      doc.created_by = some u ∧ doc.created_at = some iso ∧
      get_all_announcements teachers store' v = .ok l ∧ (nid, doc) ∈ l := by
  refine ⟨_, _, _, create_ok hu he hsd store msg iso nid, by simp, by simp,
    get_all_ok hv _, ?_⟩
  rw [List.mem_mergeSort]
  simp

/-- Witness for C8 at a concrete store and two registered users. -/
theorem C8_create_then_list_witness :
    ∃ store' doc l,
      create_announcement ["t", "v"] [] "t" "hello" "2099-01-01" none "T"
          "aaaaaaaaaaaaaaaaaaaaaaaa" =
        (store', .ok ("aaaaaaaaaaaaaaaaaaaaaaaa", doc)) ∧
      doc.created_by = some "t" ∧ doc.created_at = some "T" ∧
      get_all_announcements ["t", "v"] store' "v" = .ok l ∧
      ("aaaaaaaaaaaaaaaaaaaaaaaa", doc) ∈ l :=
  C8_create_then_list ["t", "v"] [] "t" "v" "hello" "2099-01-01" none "T"
    "aaaaaaaaaaaaaaaaaaaaaaaa" (by decide) (by decide) (by decide)
    (fun ht => by simp [truthy] at ht)

theorem findOne_of_hasId {store : Store} {oid : String}
    (h : hasId store oid = true) : ∃ d, findOne store oid = some (oid, d) := by
  have hs : (findOne store oid).isSome = true := by
    rw [findOne_isSome]
    exact h
  obtain ⟨⟨k, d⟩, hk⟩ := Option.isSome_iff_exists.mp hs
  have hp := List.find?_some hk
  simp only [beq_iff_eq] at hp
  subst hp
  exact ⟨d, hk⟩

/-- Exhaustive case analysis of `update_announcement`, following the order
of the checks in the source. -/
theorem update_cases (teachers : List String) (store : Store)
    (id u msg e : String) (sd : Option String) (iso : String) :
    (u ∉ teachers ∧ update_announcement teachers store id u msg e sd iso =
      (store, .error .Unauthorized)) ∨
    (u ∈ teachers ∧ parseObjectId id = none ∧
      update_announcement teachers store id u msg e sd iso =
      (store, .error .InvalidId)) ∨
    (u ∈ teachers ∧ (∃ oid, parseObjectId id = some oid) ∧
      validate_date e = false ∧
      update_announcement teachers store id u msg e sd iso =
      (store, .error (.InvalidDate "expiration_date"))) ∨
    (u ∈ teachers ∧ (∃ oid, parseObjectId id = some oid) ∧
      validate_date e = true ∧ truthy sd = true ∧
      validate_date (sd.getD "") = false ∧
      update_announcement teachers store id u msg e sd iso =
      (store, .error (.InvalidDate "start_date"))) ∨
    (u ∈ teachers ∧ ∃ oid, parseObjectId id = some oid ∧
      validate_date e = true ∧
      ((hasId store oid = false ∧
        update_announcement teachers store id u msg e sd iso =
          (store, .error .NotFound)) ∨
       ∃ dnew, update_announcement teachers store id u msg e sd iso =
         (updateFirst store oid (fun _ => dnew), .ok (oid, dnew)))) := by
  by_cases hu : u ∈ teachers
  · cases hpo : parseObjectId id with
    | none =>
      exact Or.inr (Or.inl ⟨hu, rfl, update_invalid_id hu hpo store msg e sd iso⟩)
    | some oid =>
      by_cases hve : validate_date e = true
      · by_cases hvs : truthy sd = true ∧ validate_date (sd.getD "") = false
        · exact Or.inr (Or.inr (Or.inr (Or.inl ⟨hu, ⟨oid, rfl⟩, hve, hvs.1,
            hvs.2, update_invalid_start hu hpo hve hvs.1 hvs.2 store msg iso⟩)))
        · have hsd : truthy sd = true → validate_date (sd.getD "") = true := by
            intro ht
            by_contra hff
            exact hvs ⟨ht, by simpa using hff⟩
          by_cases hhas : hasId store oid = true
          · obtain ⟨d0, hf⟩ := findOne_of_hasId hhas
            obtain ⟨dnew, h1, h2⟩ := update_found hu hpo hve hsd hf msg iso
            exact Or.inr (Or.inr (Or.inr (Or.inr ⟨hu, oid, rfl, hve,
              Or.inr ⟨dnew, h1⟩⟩)))
          · have hna : hasId store oid = false := by simpa using hhas
            exact Or.inr (Or.inr (Or.inr (Or.inr ⟨hu, oid, rfl, hve,
              Or.inl ⟨hna, update_notfound hu hpo hve hsd hna msg iso⟩⟩)))
      · have hve' : validate_date e = false := by simpa using hve
        exact Or.inr (Or.inr (Or.inl ⟨hu, ⟨oid, rfl⟩, hve',
          update_invalid_expiration hu hpo hve' store msg sd iso⟩))
  · exact Or.inl ⟨hu, update_unauthorized hu store id msg e sd iso⟩

/-- Exhaustive case analysis of `delete_announcement`. -/
theorem delete_cases (teachers : List String) (store : Store)
    (id u : String) :
    (u ∉ teachers ∧ delete_announcement teachers store id u =
      (store, .error .Unauthorized)) ∨
    (u ∈ teachers ∧ parseObjectId id = none ∧
      delete_announcement teachers store id u = (store, .error .InvalidId)) ∨
    (u ∈ teachers ∧ ∃ oid, parseObjectId id = some oid ∧
      ((hasId store oid = false ∧ delete_announcement teachers store id u =
         (store, .error .NotFound)) ∨
       delete_announcement teachers store id u =
         (deleteFirst store oid, .ok "Announcement deleted successfully"))) := by
  by_cases hu : u ∈ teachers
  · cases hpo : parseObjectId id with
    | none => exact Or.inr (Or.inl ⟨hu, rfl, delete_invalid_id hu hpo store⟩)
    | some oid =>
      by_cases hhas : hasId store oid = true
      · exact Or.inr (Or.inr ⟨hu, oid, rfl, Or.inr (delete_found hu hpo hhas)⟩)
      · have hna : hasId store oid = false := by simpa using hhas
        exact Or.inr (Or.inr ⟨hu, oid, rfl,
          Or.inl ⟨hna, delete_notfound hu hpo hna⟩⟩)
  · exact Or.inl ⟨hu, delete_unauthorized hu store id⟩

/-- Claim C9: an empty-string `start_date` behaves as absent everywhere:
create with `""` skips its validation (the empty string would not parse)
and stores no `start_date` field; update with `""` behaves exactly like an
omitted `start_date`; and `list_active` includes an unexpired record whose
`start_date` is `""`. -/
theorem C9_empty_start_date :
    validate_date "" = false ∧
    (∀ (teachers : List String) (store : Store) (u msg e iso nid : String),
      u ∈ teachers → validate_date e = true →
      ∃ doc : Doc,
        create_announcement teachers store u msg e (some "") iso nid =
          (store ++ [(nid, doc)], .ok (nid, doc)) ∧ doc.start_date = none) ∧
    (∀ (teachers : List String) (store : Store) (id u msg e iso : String),
      update_announcement teachers store id u msg e (some "") iso =
        update_announcement teachers store id u msg e none iso) ∧
    (∀ (store : Store) (id D e : String) (dc : Doc), (id, dc) ∈ store →
      dc.start_date = some "" → dc.expiration_date = some e →
      ((id, dc) ∈ get_active_announcements store D ↔ D ≤ e)) := by
  refine ⟨by decide, ?_, ?_, ?_⟩
  · intro teachers store u msg e iso nid hu he
    refine ⟨_, create_ok hu he
      (fun ht : truthy (some "") = true => by simp [truthy] at ht)
      store msg iso nid, ?_⟩
    simp [truthy]
  · intro teachers store id u msg e iso
    rfl
  · intro store id D e dc hmem hs he
    rw [mem_active_iff hmem he]
    simp [hs, string_empty_le]

/-- Witness for C9: creating with `start_date=""` succeeds (despite `""`
not parsing as a date) and stores no start date. -/
theorem C9_empty_start_date_witness :
    ∃ doc : Doc,
      create_announcement ["t"] [] "t" "m" "2099-01-01" (some "") "T"
          "aaaaaaaaaaaaaaaaaaaaaaaa" =
        ([] ++ [("aaaaaaaaaaaaaaaaaaaaaaaa", doc)],
         .ok ("aaaaaaaaaaaaaaaaaaaaaaaa", doc)) ∧
      doc.start_date = none :=
  C9_empty_start_date.2.1 ["t"] [] "t" "m" "2099-01-01" "T"
    "aaaaaaaaaaaaaaaaaaaaaaaa" (by decide) (by decide)

/-- Claim C10: error precedence in update and delete: unknown username
yields `Unauthorized` regardless of the other arguments; with a known
username a malformed id yields `InvalidId` before any date validation;
`InvalidDate` can only arise with a known user and a well-formed id; and
every error leaves the store unchanged. -/
theorem C10_error_precedence (teachers : List String) (store : Store)
    (id u msg e : String) (sd : Option String) (iso : String) :
    (u ∉ teachers →
      update_announcement teachers store id u msg e sd iso =
        (store, .error .Unauthorized) ∧
      delete_announcement teachers store id u = (store, .error .Unauthorized)) ∧
    (u ∈ teachers → parseObjectId id = none →
      update_announcement teachers store id u msg e sd iso =
        (store, .error .InvalidId) ∧
      delete_announcement teachers store id u = (store, .error .InvalidId)) ∧
    (∀ f, (update_announcement teachers store id u msg e sd iso).2 =
        .error (.InvalidDate f) →
      u ∈ teachers ∧ parseObjectId id ≠ none) ∧
    (∀ err, (update_announcement teachers store id u msg e sd iso).2 =
        .error err →
      (update_announcement teachers store id u msg e sd iso).1 = store) ∧
    (∀ err, (delete_announcement teachers store id u).2 = .error err →
      (delete_announcement teachers store id u).1 = store) := by
  refine ⟨?_, ?_, ?_, ?_, ?_⟩
  · intro hu
    exact ⟨update_unauthorized hu store id msg e sd iso,
      delete_unauthorized hu store id⟩
  · intro hu hpo
    exact ⟨update_invalid_id hu hpo store msg e sd iso,
      delete_invalid_id hu hpo store⟩
  · intro f herr
    rcases update_cases teachers store id u msg e sd iso with
      ⟨hu, heq⟩ | ⟨hu, hpo, heq⟩ | ⟨hu, ⟨oid, hpo⟩, hve, heq⟩ |
      ⟨hu, ⟨oid, hpo⟩, hve, ht, hvs, heq⟩ | ⟨hu, oid, hpo, hve, hrest⟩
    · rw [heq] at herr
      simp at herr
    · rw [heq] at herr
      simp at herr
    · exact ⟨hu, by simp [hpo]⟩
    · exact ⟨hu, by simp [hpo]⟩
    · exact ⟨hu, by simp [hpo]⟩
  · intro err herr
    rcases update_cases teachers store id u msg e sd iso with
      ⟨hu, heq⟩ | ⟨hu, hpo, heq⟩ | ⟨hu, ⟨oid, hpo⟩, hve, heq⟩ |
      ⟨hu, ⟨oid, hpo⟩, hve, ht, hvs, heq⟩ |
      ⟨hu, oid, hpo, hve, ⟨hna, heq⟩ | ⟨dnew, heq⟩⟩
    · rw [heq]
    · rw [heq]
    · rw [heq]
    · rw [heq]
    · rw [heq]
    · rw [heq] at herr
      simp at herr
  · intro err herr
    rcases delete_cases teachers store id u with
      ⟨hu, heq⟩ | ⟨hu, hpo, heq⟩ | ⟨hu, oid, hpo, ⟨hna, heq⟩ | heq⟩
    · rw [heq]
    · rw [heq]
    · rw [heq]
    · rw [heq] at herr
      simp at herr

/-- Witness for C10: a malformed id together with a malformed expiration
date yields `InvalidId`, not `InvalidDate`. -/
theorem C10_error_precedence_witness :
    update_announcement ["t"] [] "bogus" "t" "m" "also-bogus" none "T" =
      ([], .error .InvalidId) ∧
    delete_announcement ["t"] [] "bogus" "t" = ([], .error .InvalidId) :=
  (C10_error_precedence ["t"] [] "bogus" "t" "m" "also-bogus" none "T").2.1
    (by decide) (by decide)

end Announcements
